import Mathlib

/-!
Verification of the rate-limiting subsystem of the MCP repository:
`src/utils/rate_limiter.py` (TokenBucket, RateLimiter, APIRateLimiter)
and `src/tools/amplitude/client.py` (date parsing and day counting).

Modelling conventions:
* Python floats (timestamps, token counts, refill rates) are embedded as
  exact rationals (`Rat`); Python ints as `Int`.
* The ambient clock `time.time()` becomes an explicit `now : Rat`
  parameter on every operation that reads it; the two `time.time()`
  reads inside a single `start_amplitude_request` call are modelled as
  the same instant.
* Python dicts become association lists (`List (String × _)` with
  first-match lookup and in-place value replacement) or, for the
  amplitude per-user dicts whose absent keys are always initialised to
  an empty/zero entry before they are read, total functions with
  default values (absent key ≡ default value).
* The string timestamp keys of `amplitude_costs[user]` (written
  `str(now)`, read back with `float(ts)`) are modelled by their exact
  rational values; inserting at an already-present timestamp replaces
  the stored cost, as a dict assignment does.
* Mutation becomes explicit state passing: a method that mutates `self`
  returns the new state alongside its result.
-/

/-- State of `TokenBucket` (rate_limiter.py lines 11-36). -/
structure TokenBucket where
  capacity : Rat
  tokens : Rat
  refill_rate : Rat
  last_refill : Rat
deriving Repr, DecidableEq

/-- Model of `TokenBucket.__init__`: starts full, `last_refill = time.time()`. -/
def TokenBucket.create (capacity : Rat) (refill_rate : Rat) (now : Rat) : TokenBucket :=
  { capacity := capacity, tokens := capacity, refill_rate := refill_rate, last_refill := now }

/-- Model of `TokenBucket._refill`: add `elapsed * refill_rate` tokens, capped at capacity. -/
def TokenBucket.refill (b : TokenBucket) (now : Rat) : TokenBucket :=
  let elapsed := now - b.last_refill
  let tokens_to_add := elapsed * b.refill_rate
  { b with tokens := min b.capacity (b.tokens + tokens_to_add), last_refill := now }

/-- Model of `TokenBucket.consume`: refill, then subtract if `self.tokens >= tokens`. -/
def TokenBucket.consume (b : TokenBucket) (now : Rat) (tokens : Int) : Bool × TokenBucket :=
  let b' := b.refill now
  if (tokens : Rat) ≤ b'.tokens then
    (true, { b' with tokens := b'.tokens - (tokens : Rat) })
  else
    (false, b')

/-- First-match lookup in an association list (the model of `dict[k]` /
`k in dict`). -/
def alookup {β : Type} : List (String × β) → String → Option β
  | [], _ => none
  | p :: rest, k => if p.1 = k then some p.2 else alookup rest k

/-- Replace the value stored at a present key (the model of in-place
mutation of the object stored at `dict[k]`). -/
def aset {β : Type} (l : List (String × β)) (k : String) (v : β) : List (String × β) :=
  l.map (fun p => if p.1 = k then (k, v) else p)

/-- Pointwise update of a total-function dict model. -/
def fupd {β : Type} (f : String → β) (k : String) (v : β) : String → β :=
  fun x => if x = k then v else f x

/-- State of `RateLimiter` (rate_limiter.py lines 39-66); `refill_rate`
is computed once in `__init__` as `requests_per_minute / 60.0`. -/
structure RateLimiter where
  requests_per_minute : Nat
  burst : Nat
  refill_rate : Rat
  buckets : List (String × TokenBucket)
deriving Repr, DecidableEq

/-- Model of `RateLimiter.__init__`. -/
def RateLimiter.create (requests_per_minute : Nat) (burst : Nat) : RateLimiter :=
  { requests_per_minute := requests_per_minute, burst := burst,
    refill_rate := (requests_per_minute : Rat) / 60, buckets := [] }

/-- Model of `RateLimiter.get_bucket`: get or create the bucket for `key`. -/
def RateLimiter.get_bucket (rl : RateLimiter) (key : String) (now : Rat) :
    TokenBucket × RateLimiter :=
  match alookup rl.buckets key with
  | some b => (b, rl)
  | none =>
    let b := TokenBucket.create (rl.burst : Rat) rl.refill_rate now
    (b, { rl with buckets := (key, b) :: rl.buckets })

/-- Model of `RateLimiter.check_rate_limit`: consume from the key's bucket. -/
def RateLimiter.check_rate_limit (rl : RateLimiter) (key : String) (now : Rat)
    (tokens : Int) : Bool × RateLimiter :=
  let br := rl.get_bucket key now
  let ob := br.1.consume now tokens
  (ob.1, { br.2 with buckets := aset br.2.buckets key ob.2 })

/-- State of `APIRateLimiter` (rate_limiter.py lines 117-203). -/
structure APIRateLimiter where
  limits : List (String × RateLimiter)
  amplitude_costs : String → List (Rat × Int)
  amplitude_concurrent : String → Int

/-- Model of `APIRateLimiter.__init__`. -/
def APIRateLimiter.create : APIRateLimiter where
  limits := [("notion", RateLimiter.create 180 20),
             ("slack", RateLimiter.create 60 10),
             ("github", RateLimiter.create 5000 100),
             ("amplitude", RateLimiter.create 360 5)]
  amplitude_costs := fun _ => []
  amplitude_concurrent := fun _ => 0

/-- Model of `APIRateLimiter.check_api_limit`: consume one token from the bucket
keyed `f"{api}:{user_id}"`, or pass unconditionally when `api` has no
configured limiter. -/
def APIRateLimiter.check_api_limit (a : APIRateLimiter) (api user_id : String)
    (now : Rat) : Bool × APIRateLimiter :=
  match alookup a.limits api with
  | some rl =>
    let key := api ++ ":" ++ user_id
    let or' := rl.check_rate_limit key now 1
    (or'.1, { a with limits := aset a.limits api or'.2 })
  | none => (true, a)

/-- Model of `APIRateLimiter.wait_if_limited`: read the stored token count of the
key's bucket (creating it if absent) and report `(1 - tokens) / refill_rate`
when it is below 1.  Note the source reads `bucket.tokens` directly,
without calling `_refill` first. -/
def APIRateLimiter.wait_if_limited (a : APIRateLimiter) (api user_id : String)
    (now : Rat) : Option Rat × APIRateLimiter :=
  match alookup a.limits api with
  | some rl =>
    let key := api ++ ":" ++ user_id
    let br := rl.get_bucket key now
    let a' := { a with limits := aset a.limits api br.2 }
    if br.1.tokens < 1 then
      (some ((1 - br.1.tokens) / br.1.refill_rate), a')
    else
      (none, a')
  | none => (none, a)

/-- Model of `APIRateLimiter.calculate_amplitude_cost`. -/
def calculate_amplitude_cost (days conditions query_type_cost : Int) : Int :=
  days * conditions * query_type_cost

/-- The pruning step of `check_amplitude_limits`: drop samples with
timestamp strictly older than `now - 3600`. -/
def pruneOld (now : Rat) (costs : List (Rat × Int)) : List (Rat × Int) :=
  costs.filter (fun p => !decide (p.1 < now - 3600))

/-- Model of `sum(user_costs.values())`. -/
def hourlyTotal (costs : List (Rat × Int)) : Int :=
  (costs.map Prod.snd).sum

/-- Model of `APIRateLimiter.check_amplitude_limits`: prune old samples (a
mutation that persists even when the check fails), then reject when the
hourly total would exceed 12000 or five requests are already in flight. -/
def APIRateLimiter.check_amplitude_limits (a : APIRateLimiter) (user_id : String)
    (now : Rat) (cost : Int) : Bool × APIRateLimiter :=
  let user_costs := pruneOld now (a.amplitude_costs user_id)
  let a' := { a with amplitude_costs := fupd a.amplitude_costs user_id user_costs }
  let current_hourly_cost := hourlyTotal user_costs
  if 12000 < current_hourly_cost + cost then (false, a')
  else if 5 ≤ a.amplitude_concurrent user_id then (false, a')
  else (true, a')

/-- Dict assignment `d[t] = c`: replace if the key is present, insert
otherwise. -/
def dictInsert (costs : List (Rat × Int)) (t : Rat) (c : Int) : List (Rat × Int) :=
  if costs.any (fun p => decide (p.1 = t)) then
    costs.map (fun p => if p.1 = t then (t, c) else p)
  else
    (t, c) :: costs

/-- Model of `APIRateLimiter.start_amplitude_request`: check, then record the cost
sample at `now` and increment the concurrency counter. -/
def APIRateLimiter.start_amplitude_request (a : APIRateLimiter) (user_id : String)
    (now : Rat) (cost : Int) : Bool × APIRateLimiter :=
  let oka := a.check_amplitude_limits user_id now cost
  if oka.1 then
    (true,
      { oka.2 with
        amplitude_costs :=
          fupd oka.2.amplitude_costs user_id
            (dictInsert (oka.2.amplitude_costs user_id) now cost),
        amplitude_concurrent :=
          fupd oka.2.amplitude_concurrent user_id
            (oka.2.amplitude_concurrent user_id + 1) })
  else
    (false, oka.2)

/-- Model of `APIRateLimiter.end_amplitude_request`: decrement the concurrency
counter only when it is positive. -/
def APIRateLimiter.end_amplitude_request (a : APIRateLimiter) (user_id : String) :
    APIRateLimiter :=
  if 0 < a.amplitude_concurrent user_id then
    { a with
      amplitude_concurrent :=
        fupd a.amplitude_concurrent user_id (a.amplitude_concurrent user_id - 1) }
  else a

/-! ### Date handling from `src/tools/amplitude/client.py` -/

/-- Gregorian leap-year rule (as used by Python's `datetime`). -/
def isLeapYear (y : Nat) : Bool :=
  (y % 4 == 0 && y % 100 != 0) || y % 400 == 0

/-- Length of month `m` of year `y`. -/
def daysInMonth (y m : Nat) : Nat :=
  if m = 2 then (if isLeapYear y then 29 else 28)
  else if m = 4 ∨ m = 6 ∨ m = 9 ∨ m = 11 then 30 else 31

/-- Days in the months of year `y` preceding month `m`. -/
def daysBeforeMonth (y m : Nat) : Nat :=
  ((List.range (m - 1)).map (fun i => daysInMonth y (i + 1))).sum

/-- Proleptic-Gregorian ordinal of a date, as in `datetime.date.toordinal`;
`(end - start).days` equals the difference of ordinals. -/
def dateOrdinal (y m d : Nat) : Int :=
  365 * ((y : Int) - 1) + ((y - 1) / 4 : Nat) - ((y - 1) / 100 : Nat)
    + ((y - 1) / 400 : Nat) + (daysBeforeMonth y m : Nat) + (d : Int)

/-- Numeric value of an ASCII digit character. -/
def vC (c : Char) : Nat := c.toNat - 48

/-- CPython's day field pattern for `%d`, `3[0-1]|[1-2]\d|0[1-9]|[1-9]| [1-9]`
(from `_strptime.TimeRE`), alternatives tried in this order: returns the
matched day value and the number of characters consumed, or `none`. -/
def matchDayPat (r : List Char) : Option (Nat × Nat) :=
  match r with
  | [] => none
  | [c1] =>
    if  '1' ≤ c1 ∧ c1 ≤ '9' then some (vC c1, 1) else none
  | c1 :: c2 :: _ =>
    if c1 = '3' ∧ (c2 = '0' ∨ c2 = '1') then some (30 + vC c2, 2)
    else if (c1 = '1' ∨ c1 = '2') ∧ c2.isDigit then some (10 * vC c1 + vC c2, 2)
    else if c1 = '0' ∧ ('1' ≤ c2 ∧ c2 ≤ '9') then some (vC c2, 2)
    else if '1' ≤ c1 ∧ c1 ≤ '9' then some (vC c1, 1)
    else if c1 = ' ' ∧ ('1' ≤ c2 ∧ c2 ≤ '9') then some (vC c2, 2)
    else none

/-- CPython's month-then-day match for `%m%d`: month pattern
`1[0-2]|0[1-9]|[1-9]` with alternatives tried in order, backtracking to
the next month alternative when no day alternative matches the
remainder (as the regex engine does).  Returns month, day and the
number of characters consumed by the first successful combination. -/
def matchMD (r : List Char) : Option (Nat × Nat × Nat) :=
  let try1 : Option (Nat × Nat × Nat) :=
    match r with
    | c1 :: c2 :: rest =>
      if c1 = '1' ∧ ('0' ≤ c2 ∧ c2 ≤ '2') then
        (matchDayPat rest).map (fun p => (10 + vC c2, p.1, 2 + p.2))
      else none
    | _ => none
  let try2 : Option (Nat × Nat × Nat) :=
    match r with
    | c1 :: c2 :: rest =>
      if c1 = '0' ∧ ('1' ≤ c2 ∧ c2 ≤ '9') then
        (matchDayPat rest).map (fun p => (vC c2, p.1, 2 + p.2))
      else none
    | _ => none
  let try3 : Option (Nat × Nat × Nat) :=
    match r with
    | c1 :: rest =>
      if '1' ≤ c1 ∧ c1 ≤ '9' then
        (matchDayPat rest).map (fun p => (vC c1, p.1, 1 + p.2))
      else none
    | _ => none
  match try1 with
  | some v => some v
  | none =>
    match try2 with
    | some v => some v
    | none => try3

/-- The regex match CPython's `_strptime` performs for
`strptime(s, "%Y%m%d")`: a year of exactly four digits (`%Y` is
`\d\d\d\d`), then `%m%d` as above, followed by the
"unconverted data remains" check that the match consumed the whole
string.  Faithful for ASCII strings; non-ASCII decimal digits (which
Python's `\d` and `int` also accept) are outside the model. -/
def strptimeYmd (s : String) : Option (Nat × Nat × Nat) :=
  match s.data with
  | y1 :: y2 :: y3 :: y4 :: r =>
    if y1.isDigit ∧ y2.isDigit ∧ y3.isDigit ∧ y4.isDigit then
      match matchMD r with
      | some (m, d, k) =>
        if k = r.length then
          some (1000 * vC y1 + 100 * vC y2 + 10 * vC y3 + vC y4, m, d)
        else none
      | none => none
    else none
  | _ => none

/-- Model of `datetime.strptime(s, "%Y%m%d")`: the `_strptime` regex
match above followed by the `datetime` constructor's validation
(`MINYEAR = 1 ≤ year`, month 1-12, day within the month).  Checked
against CPython on several hundred thousand ASCII strings. -/
def parseYYYYMMDD (s : String) : Option (Nat × Nat × Nat) :=
  match strptimeYmd s with
  | some (y, m, d) =>
    if 1 ≤ y ∧ 1 ≤ m ∧ m ≤ 12 ∧ 1 ≤ d ∧ d ≤ daysInMonth y m then
      some (y, m, d)
    else none
  | none => none

/-- Model of `AmplitudeClient._calculate_days`: `(end - start).days + 1`, with 1 as
the fallback when either date fails to parse. -/
def calculate_days (start_date end_date : String) : Int :=
  match parseYYYYMMDD start_date, parseYYYYMMDD end_date with
  | some s, some e =>
    (dateOrdinal e.1 e.2.1 e.2.2 - dateOrdinal s.1 s.2.1 s.2.2) + 1
  | _, _ => 1

/-- Model of `AmplitudeClient.calculate_cost`: delegates to
`api_rate_limiter.calculate_amplitude_cost`. -/
def AmplitudeClient.calculate_cost (days conditions query_type_cost : Int) : Int :=
  calculate_amplitude_cost days conditions query_type_cost

/-! ### Claim theorems -/

/-- C7: `calculate_amplitude_cost(days, conditions, query_type_cost)` is
exactly the product `days * conditions * query_type_cost`; in particular
the client-level `calculate_cost` gives 56 for (7,1,8), 1 for (1,1,1) and
620 for (31,2,10). -/
theorem calculate_amplitude_cost_product :
    (∀ days conditions query_type_cost : Int,
        calculate_amplitude_cost days conditions query_type_cost
          = days * conditions * query_type_cost)
    ∧ AmplitudeClient.calculate_cost 7 1 8 = 56
    ∧ AmplitudeClient.calculate_cost 1 1 1 = 1
    ∧ AmplitudeClient.calculate_cost 31 2 10 = 620 :=
  ⟨fun _ _ _ => rfl, by decide, by decide, by decide⟩

/-- Sanity checks of the parse model against CPython's observed
behaviour: `strptime` backtracks on 6- and 7-digit strings
(`"2024111"` is 2024-11-01, `"202411"` is 2024-01-01, so
`_calculate_days("2024111", "20240108")` is a genuine −297), while
5-digit strings, out-of-range days, trailing garbage and year 0 all
raise and fall back. -/
theorem parseYYYYMMDD_matches_strptime :
    parseYYYYMMDD "2024111" = some (2024, 11, 1)
    ∧ parseYYYYMMDD "202411" = some (2024, 1, 1)
    ∧ calculate_days "2024111" "20240108" = -297
    ∧ parseYYYYMMDD "20241" = none
    ∧ parseYYYYMMDD "20240230" = none
    ∧ parseYYYYMMDD "20241301" = none
    ∧ parseYYYYMMDD "00000101" = none
    ∧ parseYYYYMMDD "999123" = some (9991, 2, 3) := by
  refine ⟨by decide, by decide, by decide, by decide, by decide, by decide,
    by decide, by decide⟩

/-- C8: the day count is inclusive of both endpoints
(`calculate_days "20240101" "20240101" = 1`,
`calculate_days "20240101" "20240131" = 31`), and for ASCII inputs
(where the parse model is exact; Python additionally accepts non-ASCII
decimal digits), whenever either date string fails to parse the
function returns 1 instead of propagating an error. -/
theorem calculate_days_inclusive_default :
    calculate_days "20240101" "20240101" = 1
    ∧ calculate_days "20240101" "20240131" = 31
    ∧ ∀ s e : String,
        (∀ c ∈ s.data, c.toNat < 128) → (∀ c ∈ e.data, c.toNat < 128) →
        (parseYYYYMMDD s = none ∨ parseYYYYMMDD e = none) →
        calculate_days s e = 1 := by
  refine ⟨by decide, by decide, ?_⟩
  intro s e _ _ h
  unfold calculate_days
  split
  · rename_i s' e' hs he
    rcases h with h | h
    · rw [h] at hs; cases hs
    · rw [h] at he; cases he
  · rfl

/-- Witness for C8 at a concrete unparseable first argument. -/
theorem calculate_days_inclusive_default_witness :
    calculate_days "2024-01-01" "20240101" = 1 :=
  calculate_days_inclusive_default.2.2 "2024-01-01" "20240101"
    (by decide) (by decide) (Or.inl (by decide))

/-- C9: an API name with no configured limiter passes every check with no
state change: a single call returns `(true, a)`, any name outside
{notion, slack, github, amplitude} has no configured limiter in a fresh
`APIRateLimiter`, and any number of repeated calls leaves the state
untouched. -/
theorem check_api_limit_fail_open :
    (∀ (a : APIRateLimiter) (api user_id : String) (now : Rat),
        alookup a.limits api = none →
        a.check_api_limit api user_id now = (true, a))
    ∧ (∀ api : String,
        ¬ (api = "notion" ∨ api = "slack" ∨ api = "github" ∨ api = "amplitude") →
        alookup APIRateLimiter.create.limits api = none)
    ∧ (∀ (a : APIRateLimiter) (api user_id : String) (now : Rat) (n : Nat),
        alookup a.limits api = none →
        (fun s : APIRateLimiter => (s.check_api_limit api user_id now).2)^[n] a = a) := by
  have key : ∀ (a : APIRateLimiter) (api user_id : String) (now : Rat),
      alookup a.limits api = none →
      a.check_api_limit api user_id now = (true, a) := by
    intro a api user_id now h
    unfold APIRateLimiter.check_api_limit
    rw [h]
  refine ⟨key, ?_, ?_⟩
  · intro api h
    have h1 : ¬ ("notion" = api) := fun hh => h (Or.inl hh.symm)
    have h2 : ¬ ("slack" = api) := fun hh => h (Or.inr (Or.inl hh.symm))
    have h3 : ¬ ("github" = api) := fun hh => h (Or.inr (Or.inr (Or.inl hh.symm)))
    have h4 : ¬ ("amplitude" = api) := fun hh => h (Or.inr (Or.inr (Or.inr hh.symm)))
    simp [APIRateLimiter.create, alookup, h1, h2, h3, h4]
  · intro a api user_id now n h
    induction n with
    | zero => rfl
    | succ k ih =>
      rw [Function.iterate_succ_apply]
      simpa [key a api user_id now h] using ih

/-- Witness for C9 at the unconfigured API name "unknown-api". -/
theorem check_api_limit_fail_open_witness :
    APIRateLimiter.create.check_api_limit "unknown-api" "user1" 0
        = (true, APIRateLimiter.create)
    ∧ alookup APIRateLimiter.create.limits "unknown-api" = none
    ∧ (fun s : APIRateLimiter => (s.check_api_limit "unknown-api" "user1" 0).2)^[3]
        APIRateLimiter.create = APIRateLimiter.create :=
  ⟨check_api_limit_fail_open.1 _ _ _ _ rfl,
   check_api_limit_fail_open.2.1 "unknown-api" (by decide),
   check_api_limit_fail_open.2.2 _ _ _ _ 3 rfl⟩

/-! ### TokenBucket runs -/

/-- Fold a sequence of `consume` calls, each given as `(now, tokens)`. -/
def runConsumes (b : TokenBucket) (calls : List (Rat × Int)) : TokenBucket :=
  calls.foldl (fun s c => (s.consume c.1 c.2).2) b

/-- The call times are nondecreasing starting from `t` (each call sees a
non-negative elapsed time). -/
def timesOK : Rat → List (Rat × Int) → Bool
  | _, [] => true
  | t, c :: rest => decide (t ≤ c.1) && timesOK c.1 rest

/-- Fold a sequence of `consume` calls that all happen at the same instant. -/
def runConsumesAt (b : TokenBucket) (now : Rat) : List Int → TokenBucket
  | [] => b
  | n :: rest => runConsumesAt (b.consume now n).2 now rest

/-- Total amount admitted (sum of the requested sizes of the successful
calls) over a same-instant sequence of `consume` calls. -/
def admittedAt (b : TokenBucket) (now : Rat) : List Int → Int
  | [] => 0
  | n :: rest =>
    (if (b.consume now n).1 then n else 0) + admittedAt (b.consume now n).2 now rest

/-- Closed form of a single `consume` call. -/
theorem consume_eq (b : TokenBucket) (now : Rat) (n : Int) :
    b.consume now n =
      (decide ((n : Rat) ≤ min b.capacity (b.tokens + (now - b.last_refill) * b.refill_rate)),
       { capacity := b.capacity,
         tokens := min b.capacity (b.tokens + (now - b.last_refill) * b.refill_rate)
           - (if (n : Rat) ≤ min b.capacity (b.tokens + (now - b.last_refill) * b.refill_rate)
              then (n : Rat) else 0),
         refill_rate := b.refill_rate,
         last_refill := now }) := by
  unfold TokenBucket.consume TokenBucket.refill
  dsimp only
  split
  · rename_i h; simp [h]
  · rename_i h; simp [h]

/-- A single `consume` keeps `tokens` within `[0, capacity]`, provided the
elapsed time, the refill rate and the requested amount are non-negative. -/
theorem consume_tokens_bounds (b : TokenBucket) (now : Rat) (n : Int)
    (hcap : 0 ≤ b.capacity) (h0 : 0 ≤ b.tokens) (hr : 0 ≤ b.refill_rate)
    (ht : b.last_refill ≤ now) (hn : 0 ≤ n) :
    0 ≤ (b.consume now n).2.tokens ∧ (b.consume now n).2.tokens ≤ b.capacity := by
  have hn' : (0 : Rat) ≤ (n : Rat) := by exact_mod_cast hn
  have hadd : 0 ≤ b.tokens + (now - b.last_refill) * b.refill_rate :=
    add_nonneg h0 (mul_nonneg (by linarith) hr)
  have hmin0 : 0 ≤ min b.capacity (b.tokens + (now - b.last_refill) * b.refill_rate) :=
    le_min hcap hadd
  have hminc : min b.capacity (b.tokens + (now - b.last_refill) * b.refill_rate) ≤ b.capacity :=
    min_le_left _ _
  rw [consume_eq]
  dsimp only
  constructor
  · split
    · rename_i h; linarith
    · linarith
  · split
    · linarith
    · linarith

/-- Running `consume` at the bucket's own `last_refill` (zero elapsed time): no
refill happens, so the call only subtracts on success and all other
fields, including `last_refill`, are preserved. -/
theorem consume_noRefill (b : TokenBucket) (n : Int) (hbc : b.tokens ≤ b.capacity) :
    (b.consume b.last_refill n).1 = decide ((n : Rat) ≤ b.tokens)
    ∧ (b.consume b.last_refill n).2.tokens
        = b.tokens - (if (n : Rat) ≤ b.tokens then (n : Rat) else 0)
    ∧ (b.consume b.last_refill n).2.capacity = b.capacity
    ∧ (b.consume b.last_refill n).2.refill_rate = b.refill_rate
    ∧ (b.consume b.last_refill n).2.last_refill = b.last_refill := by
  have hT : min b.capacity (b.tokens + (b.last_refill - b.last_refill) * b.refill_rate)
      = b.tokens := by
    rw [sub_self, zero_mul, add_zero]
    exact min_eq_right hbc
  rw [consume_eq]
  dsimp only
  rw [hT]
  exact ⟨rfl, rfl, rfl, rfl, rfl⟩

/-- Invariant `0 ≤ tokens ≤ capacity` over any run of `consume` calls
with nondecreasing times and non-negative amounts. -/
theorem runConsumes_inv : ∀ (calls : List (Rat × Int)) (b : TokenBucket),
    0 ≤ b.capacity → 0 ≤ b.refill_rate → 0 ≤ b.tokens → b.tokens ≤ b.capacity →
    timesOK b.last_refill calls = true →
    (calls.all fun c => decide (0 ≤ c.2)) = true →
    0 ≤ (runConsumes b calls).tokens ∧ (runConsumes b calls).tokens ≤ b.capacity := by
  intro calls
  induction calls with
  | nil => intro b _ _ h3 h4 _ _; exact ⟨h3, h4⟩
  | cons c rest ih =>
    intro b hcap hr h0 hbc htimes hall
    have hts : b.last_refill ≤ c.1 ∧ timesOK c.1 rest = true := by
      simpa [timesOK] using htimes
    have halls : 0 ≤ c.2 ∧ (rest.all fun x => decide (0 ≤ x.2)) = true := by
      simpa using hall
    have hbnd := consume_tokens_bounds b c.1 c.2 hcap h0 hr hts.1 halls.1
    have hb'cap : (b.consume c.1 c.2).2.capacity = b.capacity := by rw [consume_eq]
    have hb'rate : (b.consume c.1 c.2).2.refill_rate = b.refill_rate := by rw [consume_eq]
    have hb'last : (b.consume c.1 c.2).2.last_refill = c.1 := by rw [consume_eq]
    have hrun : runConsumes b (c :: rest) = runConsumes (b.consume c.1 c.2).2 rest := rfl
    have := ih (b.consume c.1 c.2).2 (by rw [hb'cap]; exact hcap)
      (by rw [hb'rate]; exact hr) hbnd.1
      (by rw [hb'cap]; exact hbnd.2) (by rw [hb'last]; exact hts.2) halls.2
    rw [hrun]
    refine ⟨this.1, ?_⟩
    rw [← hb'cap]
    exact this.2

/-- Over a same-instant run, the cumulative admitted amount never exceeds
the starting token count. -/
theorem admittedAt_le : ∀ (ns : List Int) (b : TokenBucket),
    0 ≤ b.capacity → 0 ≤ b.refill_rate → 0 ≤ b.tokens → b.tokens ≤ b.capacity →
    (ns.all fun n => decide (0 ≤ n)) = true →
    ((admittedAt b b.last_refill ns : Int) : Rat) ≤ b.tokens := by
  intro ns
  induction ns with
  | nil => intro b _ _ h0 _ _; simpa [admittedAt] using h0
  | cons n rest ih =>
    intro b hcap hr h0 hbc hall
    have halls : 0 ≤ n ∧ (rest.all fun x => decide (0 ≤ x)) = true := by
      simpa using hall
    have hnr := consume_noRefill b n hbc
    have hbnd := consume_tokens_bounds b b.last_refill n hcap h0 hr (le_refl _) halls.1
    have hrest := ih (b.consume b.last_refill n).2
      (hnr.2.2.1 ▸ hcap) (hnr.2.2.2.1 ▸ hr) hbnd.1 (hnr.2.2.1 ▸ hbnd.2)
      halls.2
    rw [hnr.2.2.2.2] at hrest
    have hn' : (0 : Rat) ≤ (n : Rat) := by exact_mod_cast halls.1
    show ((((if (b.consume b.last_refill n).1 then n else 0) +
        admittedAt (b.consume b.last_refill n).2 b.last_refill rest : Int)) : Rat) ≤ b.tokens
    rw [hnr.2.1] at hrest
    by_cases hc : (n : Rat) ≤ b.tokens
    · have hb : (b.consume b.last_refill n).1 = true := by
        rw [hnr.1]; exact decide_eq_true hc
      rw [if_pos hc] at hrest
      simp only [hb, if_true]
      push_cast
      linarith
    · have hb : (b.consume b.last_refill n).1 = false := by
        rw [hnr.1]; exact decide_eq_false hc
      rw [if_neg hc] at hrest
      simp only [hb, if_false]
      push_cast
      linarith

/-- C4: starting from a fresh bucket with positive capacity and
non-negative refill rate, any run of `consume` calls with nondecreasing
call times and non-negative requested amounts keeps
`0 ≤ tokens ≤ capacity`; with zero elapsed time a `consume` can only
decrease `tokens`; and over a same-instant run the cumulative admitted
amount never exceeds the initial token count (the capacity). -/
theorem tokenBucket_token_bounds :
    (∀ (cap rate t0 : Rat) (calls : List (Rat × Int)),
        0 < cap → 0 ≤ rate →
        timesOK t0 calls = true →
        (calls.all fun c => decide (0 ≤ c.2)) = true →
        0 ≤ (runConsumes (TokenBucket.create cap rate t0) calls).tokens
          ∧ (runConsumes (TokenBucket.create cap rate t0) calls).tokens ≤ cap)
    ∧ (∀ (b : TokenBucket) (n : Int), b.tokens ≤ b.capacity → 0 ≤ n →
        (b.consume b.last_refill n).2.tokens ≤ b.tokens)
    ∧ (∀ (cap rate t0 : Rat) (ns : List Int),
        0 < cap → 0 ≤ rate →
        (ns.all fun n => decide (0 ≤ n)) = true →
        ((admittedAt (TokenBucket.create cap rate t0) t0 ns : Int) : Rat) ≤ cap) := by
  refine ⟨?_, ?_, ?_⟩
  · intro cap rate t0 calls hcap hrate htimes hall
    exact runConsumes_inv calls (TokenBucket.create cap rate t0)
      (le_of_lt hcap) hrate (le_of_lt hcap) (le_refl _) htimes hall
  · intro b n hbc hn
    have hnr := consume_noRefill b n hbc
    have hn' : (0 : Rat) ≤ (n : Rat) := by exact_mod_cast hn
    rw [hnr.2.1]
    split
    · linarith
    · linarith
  · intro cap rate t0 ns hcap hrate hall
    exact admittedAt_le ns (TokenBucket.create cap rate t0)
      (le_of_lt hcap) hrate (le_of_lt hcap) (le_refl _) hall

/-- Witness for C4 at capacity 10, rate 1, calls at times 0 and 2. -/
theorem tokenBucket_token_bounds_witness :
    (0 ≤ (runConsumes (TokenBucket.create 10 1 0) [(0, 3), (2, 4)]).tokens
      ∧ (runConsumes (TokenBucket.create 10 1 0) [(0, 3), (2, 4)]).tokens ≤ 10)
    ∧ ((⟨10, 10, 1, 0⟩ : TokenBucket).consume 0 3).2.tokens
        ≤ (⟨10, 10, 1, 0⟩ : TokenBucket).tokens
    ∧ ((admittedAt (TokenBucket.create 10 1 0) 0 [3, 4, 5] : Int) : Rat) ≤ 10 :=
  ⟨tokenBucket_token_bounds.1 10 1 0 [(0, 3), (2, 4)]
      (by with_unfolding_all decide) (by with_unfolding_all decide)
      (by with_unfolding_all decide) (by with_unfolding_all decide),
   tokenBucket_token_bounds.2.1 ⟨10, 10, 1, 0⟩ 3
      (by with_unfolding_all decide) (by decide),
   tokenBucket_token_bounds.2.2 10 1 0 [3, 4, 5]
      (by with_unfolding_all decide) (by with_unfolding_all decide)
      (by with_unfolding_all decide)⟩

/-- C5: a bucket holding exactly 0 tokens with refill rate `r > 0` and
capacity at least 1, consulted `t ≥ 0` seconds later, admits `consume 1`
iff `t ≥ 1/r`; for `t < 1/r` it fails and leaves `tokens` at the
refilled value `min capacity (t * r)` with nothing subtracted. -/
theorem tokenBucket_zero_tokens_wait :
    ∀ (cap r L t : Rat), 1 ≤ cap → 0 < r → 0 ≤ t →
      ((((⟨cap, 0, r, L⟩ : TokenBucket).consume (L + t) 1).1 = true ↔ 1 / r ≤ t)
      ∧ (t < 1 / r →
          (((⟨cap, 0, r, L⟩ : TokenBucket).consume (L + t) 1).1 = false
          ∧ (((⟨cap, 0, r, L⟩ : TokenBucket).consume (L + t) 1).2.tokens
              = min cap (t * r))))) := by
  intro cap r L t hcap hr ht
  have harith : (0 : Rat) + (L + t - L) * r = t * r := by ring
  have hiff : ((1 : Rat) ≤ min cap (t * r)) ↔ 1 / r ≤ t := by
    rw [le_min_iff, div_le_iff₀ hr]
    constructor
    · rintro ⟨_, h2⟩; linarith
    · intro h; exact ⟨hcap, by linarith⟩
  constructor
  · rw [consume_eq]
    dsimp only
    rw [harith]
    rw [decide_eq_true_eq]
    push_cast
    exact hiff
  · intro hlt
    have hnot : ¬ ((1 : Rat) ≤ min cap (t * r)) := by
      rw [hiff]; linarith
    rw [consume_eq]
    dsimp only
    rw [harith]
    push_cast
    constructor
    · rw [decide_eq_false hnot]
    · rw [if_neg hnot, sub_zero]

/-- Witness for C5: capacity 5, rate 1/2, waiting t = 1 < 1/r = 2 seconds. -/
theorem tokenBucket_zero_tokens_wait_witness :
    ((((⟨5, 0, 1/2, 0⟩ : TokenBucket).consume (0 + 1) 1).1 = true ↔ 1 / (1/2) ≤ (1 : Rat))
    ∧ ((1 : Rat) < 1 / (1/2) →
        ((((⟨5, 0, 1/2, 0⟩ : TokenBucket).consume (0 + 1) 1).1 = false
        ∧ (((⟨5, 0, 1/2, 0⟩ : TokenBucket).consume (0 + 1) 1).2.tokens
            = min 5 (1 * (1/2))))))) :=
  tokenBucket_zero_tokens_wait 5 (1/2) 0 1 (by with_unfolding_all decide)
    (by with_unfolding_all decide) (by with_unfolding_all decide)

/-! ### Amplitude cost-tracker lemmas -/

theorem fupd_self {β : Type} (f : String → β) (k : String) (v : β) :
    fupd f k v k = v := by
  simp [fupd]

theorem fupd_fupd_same {β : Type} (f : String → β) (k : String) (v w : β) :
    fupd (fupd f k v) k w = fupd f k w := by
  funext x
  unfold fupd
  by_cases h : x = k <;> simp [h]

/-- Pruning is idempotent. -/
theorem pruneOld_idem (now : Rat) (l : List (Rat × Int)) :
    pruneOld now (pruneOld now l) = pruneOld now l := by
  unfold pruneOld
  apply List.filter_eq_self.mpr
  intro p hp
  exact (List.mem_filter.mp hp).2

/-- A sample stamped at the present instant survives pruning. -/
theorem pruneOld_cons_now (now : Rat) (c : Int) (l : List (Rat × Int)) :
    pruneOld now ((now, c) :: l) = (now, c) :: pruneOld now l := by
  have h : ¬ (now < now - 3600) := by linarith
  simp [pruneOld, List.filter_cons, h]

theorem mem_of_mem_pruneOld {now : Rat} {l : List (Rat × Int)} {p : Rat × Int}
    (hp : p ∈ pruneOld now l) : p ∈ l :=
  (List.mem_filter.mp hp).1

/-- Inserting at a timestamp not present in the dict prepends. -/
theorem dictInsert_not_mem {l : List (Rat × Int)} {t : Rat} (c : Int)
    (h : ∀ p ∈ l, p.1 ≠ t) : dictInsert l t c = (t, c) :: l := by
  have hno : ¬ (l.any (fun p => decide (p.1 = t)) = true) := by
    simp only [List.any_eq_true, decide_eq_true_eq]
    rintro ⟨p, hp, hpt⟩
    exact h p hp hpt
  unfold dictInsert
  rw [if_neg hno]

/-- Re-inserting at the timestamp of the head sample replaces it. -/
theorem dictInsert_head {l : List (Rat × Int)} {t : Rat} (c c' : Int)
    (h : ∀ p ∈ l, p.1 ≠ t) : dictInsert ((t, c) :: l) t c' = (t, c') :: l := by
  unfold dictInsert
  rw [if_pos]
  · simp only [List.map_cons, if_pos rfl]
    congr 1
    have hmap : ∀ p ∈ l, (if p.1 = t then (t, c') else p) = p := by
      intro p hp
      exact if_neg (h p hp)
    calc l.map (fun p => if p.1 = t then (t, c') else p) = l.map id :=
          List.map_congr_left hmap
      _ = l := List.map_id l
  · simp

theorem hourlyTotal_cons (t : Rat) (c : Int) (l : List (Rat × Int)) :
    hourlyTotal ((t, c) :: l) = c + hourlyTotal l := by
  simp [hourlyTotal]

/-- Closed form of `check_amplitude_limits`: the boolean outcome, and the
state with the user's samples pruned. -/
theorem check_amplitude_limits_eq (a : APIRateLimiter) (u : String) (now : Rat)
    (cost : Int) :
    a.check_amplitude_limits u now cost
      = ((!decide (12000 < hourlyTotal (pruneOld now (a.amplitude_costs u)) + cost)
          && !decide (5 ≤ a.amplitude_concurrent u)),
         { a with
           amplitude_costs :=
             fupd a.amplitude_costs u (pruneOld now (a.amplitude_costs u)) }) := by
  unfold APIRateLimiter.check_amplitude_limits
  dsimp only
  by_cases h1 : 12000 < hourlyTotal (pruneOld now (a.amplitude_costs u)) + cost
  · rw [if_pos h1]
    simp [h1]
  · rw [if_neg h1]
    by_cases h2 : 5 ≤ a.amplitude_concurrent u
    · rw [if_pos h2]
      simp [h1, h2]
    · rw [if_neg h2]
      simp [h1, h2]

/-- A `start_amplitude_request` that passes both checks records the cost
sample and increments the concurrency counter. -/
theorem start_success_run (a : APIRateLimiter) (u : String) (now : Rat) (cost : Int)
    (hbud : hourlyTotal (pruneOld now (a.amplitude_costs u)) + cost ≤ 12000)
    (hconc : a.amplitude_concurrent u < 5) :
    a.start_amplitude_request u now cost
      = (true,
         { a with
           amplitude_costs :=
             fupd a.amplitude_costs u
               (dictInsert (pruneOld now (a.amplitude_costs u)) now cost),
           amplitude_concurrent :=
             fupd a.amplitude_concurrent u (a.amplitude_concurrent u + 1) }) := by
  have h1 : ¬ (12000 < hourlyTotal (pruneOld now (a.amplitude_costs u)) + cost) := by
    linarith
  have h2 : ¬ (5 ≤ a.amplitude_concurrent u) := by linarith
  unfold APIRateLimiter.start_amplitude_request
  rw [check_amplitude_limits_eq]
  dsimp only
  rw [decide_eq_false h1, decide_eq_false h2]
  simp only [Bool.not_false, Bool.and_self, if_true]
  simp only [fupd_self, fupd_fupd_same]

/-- A `start_amplitude_request` that fails the budget check returns false
and leaves only the pruning mutation behind. -/
theorem start_fail_budget (a : APIRateLimiter) (u : String) (now : Rat) (cost : Int)
    (hbud : 12000 < hourlyTotal (pruneOld now (a.amplitude_costs u)) + cost) :
    a.start_amplitude_request u now cost
      = (false,
         { a with
           amplitude_costs :=
             fupd a.amplitude_costs u (pruneOld now (a.amplitude_costs u)) }) := by
  unfold APIRateLimiter.start_amplitude_request
  rw [check_amplitude_limits_eq]
  dsimp only
  rw [decide_eq_true hbud]
  simp

/-- A `start_amplitude_request` that fails the concurrency check returns
false and leaves only the pruning mutation behind. -/
theorem start_fail_conc (a : APIRateLimiter) (u : String) (now : Rat) (cost : Int)
    (hconc : 5 ≤ a.amplitude_concurrent u) :
    a.start_amplitude_request u now cost
      = (false,
         { a with
           amplitude_costs :=
             fupd a.amplitude_costs u (pruneOld now (a.amplitude_costs u)) }) := by
  unfold APIRateLimiter.start_amplitude_request
  rw [check_amplitude_limits_eq]
  dsimp only
  rw [decide_eq_true hconc]
  simp

/-- Calling `end_amplitude_request` on a positive counter decrements it. -/
theorem end_request_pos (a : APIRateLimiter) (u : String)
    (h : 0 < a.amplitude_concurrent u) :
    a.end_amplitude_request u
      = { a with
          amplitude_concurrent :=
            fupd a.amplitude_concurrent u (a.amplitude_concurrent u - 1) } := by
  unfold APIRateLimiter.end_amplitude_request
  rw [if_pos h]

/-- An interleaving step against the Amplitude tracker: a
`start_amplitude_request` (its boolean result discarded) or an
`end_amplitude_request`. -/
inductive AmpOp where
  | start (user : String) (now : Rat) (cost : Int)
  | finish (user : String)

/-- Apply one tracker operation. -/
def applyAmpOp (a : APIRateLimiter) : AmpOp → APIRateLimiter
  | AmpOp.start u now cost => (a.start_amplitude_request u now cost).2
  | AmpOp.finish u => a.end_amplitude_request u

/-- Run a sequence of tracker operations. -/
def runAmpOps (a : APIRateLimiter) (ops : List AmpOp) : APIRateLimiter :=
  ops.foldl applyAmpOp a

/-- Updating one key with a non-negative value keeps every counter
non-negative. -/
theorem fupd_nonneg (f : String → Int) (k : String) (w : Int)
    (hf : ∀ v, 0 ≤ f v) (hw : 0 ≤ w) : ∀ v, 0 ≤ fupd f k w v := by
  intro v
  unfold fupd
  split
  · exact hw
  · exact hf v

/-- Any single operation preserves pointwise non-negativity of the
concurrency counters. -/
theorem applyAmpOp_conc_nonneg (a : APIRateLimiter) (op : AmpOp)
    (h : ∀ v, 0 ≤ a.amplitude_concurrent v) :
    ∀ v, 0 ≤ (applyAmpOp a op).amplitude_concurrent v := by
  cases op with
  | start u now cost =>
    show ∀ v, 0 ≤ (a.start_amplitude_request u now cost).2.amplitude_concurrent v
    unfold APIRateLimiter.start_amplitude_request
    rw [check_amplitude_limits_eq]
    dsimp only
    split
    · exact fupd_nonneg _ u _ h (by have := h u; linarith)
    · exact h
  | finish u =>
    show ∀ v, 0 ≤ (a.end_amplitude_request u).amplitude_concurrent v
    unfold APIRateLimiter.end_amplitude_request
    split
    · rename_i hpos
      exact fupd_nonneg _ u _ h (by linarith)
    · exact h

/-- Non-negativity of every concurrency counter along any run. -/
theorem runAmpOps_conc_nonneg : ∀ (ops : List AmpOp) (a : APIRateLimiter),
    (∀ v, 0 ≤ a.amplitude_concurrent v) →
    ∀ v, 0 ≤ (runAmpOps a ops).amplitude_concurrent v := by
  intro ops
  induction ops with
  | nil => intro a h; exact h
  | cons op rest ih =>
    intro a h
    exact ih (applyAmpOp a op) (applyAmpOp_conc_nonneg a op h)

/-- C3: over every interleaving of `start_amplitude_request` and
`end_amplitude_request` from a fresh tracker, no concurrency counter ever
becomes negative; and `end_amplitude_request` on a key whose counter is
not positive is a no-op on the whole state (so surplus releases change
nothing and grant no extra admission headroom). -/
theorem end_amplitude_request_nonnegative :
    (∀ (ops : List AmpOp) (u : String),
        0 ≤ (runAmpOps APIRateLimiter.create ops).amplitude_concurrent u)
    ∧ (∀ (a : APIRateLimiter) (u : String),
        a.amplitude_concurrent u ≤ 0 → a.end_amplitude_request u = a) := by
  constructor
  · intro ops u
    exact runAmpOps_conc_nonneg ops APIRateLimiter.create (fun _ => le_refl 0) u
  · intro a u h
    unfold APIRateLimiter.end_amplitude_request
    rw [if_neg (by linarith)]

/-- Witness for C3: a run with one admit and two releases for key "u",
and a surplus release on the fresh tracker. -/
theorem end_amplitude_request_nonnegative_witness :
    0 ≤ (runAmpOps APIRateLimiter.create
          [AmpOp.start "u" 0 1, AmpOp.finish "u", AmpOp.finish "u"]).amplitude_concurrent "u"
    ∧ APIRateLimiter.create.end_amplitude_request "u" = APIRateLimiter.create :=
  ⟨end_amplitude_request_nonnegative.1 _ "u",
   end_amplitude_request_nonnegative.2 APIRateLimiter.create "u" (le_refl 0)⟩

/-- C1: from a tracker that is empty for key `u`, `admit(u, 12000)` at
time `t0` succeeds; a subsequent `admit(u, 1)` at any time `t` strictly
within 3600 seconds of `t0` fails; and after the first request is
released, an `admit(u, 1)` at any time `t'` more than 3600 seconds after
`t0` succeeds again because the old sample is pruned. -/
theorem amplitude_hourly_window_cycle :
    ∀ (a : APIRateLimiter) (u : String) (t0 t t' : Rat),
      a.amplitude_costs u = [] → a.amplitude_concurrent u = 0 →
      t0 ≤ t → t - t0 < 3600 → t ≤ t' → 3600 < t' - t0 →
      (a.start_amplitude_request u t0 12000).1 = true
      ∧ ((a.start_amplitude_request u t0 12000).2.start_amplitude_request u t 1).1 = false
      ∧ ((((a.start_amplitude_request u t0 12000).2.start_amplitude_request u t
            1).2.end_amplitude_request u).start_amplitude_request u t' 1).1 = true := by
  intro a u t0 t t' hcosts hconc hle1 hlt hle2 hgt
  have hP : pruneOld t0 (a.amplitude_costs u) = [] := by rw [hcosts]; rfl
  have h1 := start_success_run a u t0 12000
    (by rw [hP]; simp [hourlyTotal]) (by rw [hconc]; norm_num)
  rw [hP, hconc] at h1
  have hdi : dictInsert [] t0 12000 = [(t0, 12000)] := rfl
  rw [hdi] at h1
  simp only [zero_add] at h1
  have hP2 : pruneOld t ([(t0, 12000)] : List (Rat × Int)) = [(t0, 12000)] := by
    have hx : ¬ (t0 < t - 3600) := by linarith
    simp [pruneOld, hx]
  have hP3 : pruneOld t' ([(t0, 12000)] : List (Rat × Int)) = [] := by
    have hx : t0 < t' - 3600 := by linarith
    simp [pruneOld, hx]
  have h2 := start_fail_budget
    { a with
      amplitude_costs := fupd a.amplitude_costs u [(t0, 12000)],
      amplitude_concurrent := fupd a.amplitude_concurrent u 1 } u t 1
    (by dsimp only; rw [fupd_self, hP2]; simp [hourlyTotal])
  dsimp only at h2
  rw [fupd_self, hP2, fupd_fupd_same] at h2
  have hend := end_request_pos
    { a with
      amplitude_costs := fupd a.amplitude_costs u [(t0, 12000)],
      amplitude_concurrent := fupd a.amplitude_concurrent u 1 } u
    (by dsimp only; rw [fupd_self]; norm_num)
  dsimp only at hend
  rw [fupd_self, fupd_fupd_same] at hend
  norm_num at hend
  have h4 := start_success_run
    { a with
      amplitude_costs := fupd a.amplitude_costs u [(t0, 12000)],
      amplitude_concurrent := fupd a.amplitude_concurrent u 0 } u t' 1
    (by dsimp only; rw [fupd_self, hP3]; simp [hourlyTotal])
    (by dsimp only; rw [fupd_self]; norm_num)
  refine ⟨by rw [h1], ?_, ?_⟩
  · rw [h1]
    dsimp only
    rw [h2]
  · rw [h1]
    dsimp only
    rw [h2]
    dsimp only
    rw [hend, h4]

/-- Witness for C1: fresh tracker, first sample at time 0, retry at
time 1, final retry at time 3601. -/
theorem amplitude_hourly_window_cycle_witness :
    (APIRateLimiter.create.start_amplitude_request "u1" 0 12000).1 = true
    ∧ ((APIRateLimiter.create.start_amplitude_request "u1" 0
          12000).2.start_amplitude_request "u1" 1 1).1 = false
    ∧ ((((APIRateLimiter.create.start_amplitude_request "u1" 0
          12000).2.start_amplitude_request "u1" 1
          1).2.end_amplitude_request "u1").start_amplitude_request "u1" 3601 1).1 = true :=
  amplitude_hourly_window_cycle APIRateLimiter.create "u1" 0 1 3601 rfl rfl
    (by with_unfolding_all decide) (by with_unfolding_all decide)
    (by with_unfolding_all decide) (by with_unfolding_all decide)

/-- State after `n` same-instant `start_amplitude_request` calls. -/
def nthStartState (a : APIRateLimiter) (u : String) (now : Rat) (cost : Int) :
    Nat → APIRateLimiter
  | 0 => a
  | n + 1 => ((nthStartState a u now cost n).start_amplitude_request u now cost).2

/-- Boolean outcome of the `(n+1)`-st same-instant call. -/
def nthStartResult (a : APIRateLimiter) (u : String) (now : Rat) (cost : Int)
    (n : Nat) : Bool :=
  ((nthStartState a u now cost n).start_amplitude_request u now cost).1

/-- The first admit from a zero-concurrency state: records the sample and
sets the counter to one. -/
theorem start_first (a : APIRateLimiter) (u : String) (now : Rat)
    (hconc : a.amplitude_concurrent u = 0)
    (hfresh : ∀ p ∈ a.amplitude_costs u, p.1 ≠ now)
    (hbud : hourlyTotal (pruneOld now (a.amplitude_costs u)) + 2 ≤ 12000) :
    a.start_amplitude_request u now 1
      = (true,
         { a with
           amplitude_costs :=
             fupd a.amplitude_costs u ((now, 1) :: pruneOld now (a.amplitude_costs u)),
           amplitude_concurrent := fupd a.amplitude_concurrent u 1 }) := by
  have hfreshP : ∀ p ∈ pruneOld now (a.amplitude_costs u), p.1 ≠ now :=
    fun p hp => hfresh p (mem_of_mem_pruneOld hp)
  have h := start_success_run a u now 1 (by linarith) (by rw [hconc]; norm_num)
  rw [dictInsert_not_mem 1 hfreshP, hconc] at h
  simpa using h

/-- An admit from the mid-scenario state with counter `k < 5`: the sample
list is unchanged (same-timestamp insert overwrites) and the counter
becomes `k + 1`. -/
theorem start_on_midstate (a : APIRateLimiter) (u : String) (now : Rat) (k : Int)
    (hfresh : ∀ p ∈ a.amplitude_costs u, p.1 ≠ now)
    (hbud : hourlyTotal (pruneOld now (a.amplitude_costs u)) + 2 ≤ 12000)
    (hk : k < 5) :
    ({ a with
       amplitude_costs :=
         fupd a.amplitude_costs u ((now, 1) :: pruneOld now (a.amplitude_costs u)),
       amplitude_concurrent := fupd a.amplitude_concurrent u k } :
      APIRateLimiter).start_amplitude_request u now 1
      = (true,
         { a with
           amplitude_costs :=
             fupd a.amplitude_costs u ((now, 1) :: pruneOld now (a.amplitude_costs u)),
           amplitude_concurrent := fupd a.amplitude_concurrent u (k + 1) }) := by
  have hfreshP : ∀ p ∈ pruneOld now (a.amplitude_costs u), p.1 ≠ now :=
    fun p hp => hfresh p (mem_of_mem_pruneOld hp)
  have hprune : pruneOld now ((now, 1) :: pruneOld now (a.amplitude_costs u))
      = (now, 1) :: pruneOld now (a.amplitude_costs u) := by
    rw [pruneOld_cons_now, pruneOld_idem]
  have h := start_success_run
    { a with
      amplitude_costs :=
        fupd a.amplitude_costs u ((now, 1) :: pruneOld now (a.amplitude_costs u)),
      amplitude_concurrent := fupd a.amplitude_concurrent u k } u now 1
    (by dsimp only; rw [fupd_self, hprune, hourlyTotal_cons]; linarith)
    (by dsimp only; rw [fupd_self]; exact hk)
  dsimp only at h
  rw [fupd_self, fupd_self, hprune, dictInsert_head 1 1 hfreshP,
    fupd_fupd_same, fupd_fupd_same] at h
  exact h

/-- The sixth same-instant admit fails on the concurrency check and
leaves the state unchanged. -/
theorem start_on_full (a : APIRateLimiter) (u : String) (now : Rat) :
    ({ a with
       amplitude_costs :=
         fupd a.amplitude_costs u ((now, 1) :: pruneOld now (a.amplitude_costs u)),
       amplitude_concurrent := fupd a.amplitude_concurrent u 5 } :
      APIRateLimiter).start_amplitude_request u now 1
      = (false,
         { a with
           amplitude_costs :=
             fupd a.amplitude_costs u ((now, 1) :: pruneOld now (a.amplitude_costs u)),
           amplitude_concurrent := fupd a.amplitude_concurrent u 5 }) := by
  have hprune : pruneOld now ((now, 1) :: pruneOld now (a.amplitude_costs u))
      = (now, 1) :: pruneOld now (a.amplitude_costs u) := by
    rw [pruneOld_cons_now, pruneOld_idem]
  have h := start_fail_conc
    { a with
      amplitude_costs :=
        fupd a.amplitude_costs u ((now, 1) :: pruneOld now (a.amplitude_costs u)),
      amplitude_concurrent := fupd a.amplitude_concurrent u 5 } u now 1
    (by dsimp only; rw [fupd_self])
  dsimp only at h
  rw [fupd_self, hprune, fupd_fupd_same] at h
  exact h

/-- C2: from any state with zero in-flight requests for key `u`, no
stored sample stamped at the current instant, and enough remaining
hourly budget, five consecutive `admit(u, 1)` calls all succeed, the
sixth fails while all five are unreleased, and after a single release
the next `admit(u, 1)` succeeds; moreover a passing check always
requires `concurrentCount[u] < 5`. -/
theorem amplitude_concurrent_limit_five :
    (∀ (a : APIRateLimiter) (u : String) (now : Rat),
      a.amplitude_concurrent u = 0 →
      (∀ p ∈ a.amplitude_costs u, p.1 ≠ now) →
      hourlyTotal (pruneOld now (a.amplitude_costs u)) + 2 ≤ 12000 →
      nthStartResult a u now 1 0 = true
      ∧ nthStartResult a u now 1 1 = true
      ∧ nthStartResult a u now 1 2 = true
      ∧ nthStartResult a u now 1 3 = true
      ∧ nthStartResult a u now 1 4 = true
      ∧ nthStartResult a u now 1 5 = false
      ∧ (((nthStartState a u now 1 6).end_amplitude_request
            u).start_amplitude_request u now 1).1 = true)
    ∧ (∀ (a : APIRateLimiter) (u : String) (now : Rat) (cost : Int),
        (a.check_amplitude_limits u now cost).1 = true →
        a.amplitude_concurrent u < 5) := by
  constructor
  · intro a u now hconc hfresh hbud
    have e1 := start_first a u now hconc hfresh hbud
    have e2 := start_on_midstate a u now 1 hfresh hbud (by norm_num)
    have e3 := start_on_midstate a u now 2 hfresh hbud (by norm_num)
    have e4 := start_on_midstate a u now 3 hfresh hbud (by norm_num)
    have e5 := start_on_midstate a u now 4 hfresh hbud (by norm_num)
    norm_num at e2 e3 e4 e5
    have e6 := start_on_full a u now
    have hs1 : nthStartState a u now 1 1
        = (a.start_amplitude_request u now 1).2 := rfl
    rw [e1] at hs1
    dsimp only at hs1
    have hs2 : nthStartState a u now 1 2
        = ((nthStartState a u now 1 1).start_amplitude_request u now 1).2 := rfl
    rw [hs1, e2] at hs2
    dsimp only at hs2
    have hs3 : nthStartState a u now 1 3
        = ((nthStartState a u now 1 2).start_amplitude_request u now 1).2 := rfl
    rw [hs2, e3] at hs3
    dsimp only at hs3
    have hs4 : nthStartState a u now 1 4
        = ((nthStartState a u now 1 3).start_amplitude_request u now 1).2 := rfl
    rw [hs3, e4] at hs4
    dsimp only at hs4
    have hs5 : nthStartState a u now 1 5
        = ((nthStartState a u now 1 4).start_amplitude_request u now 1).2 := rfl
    rw [hs4, e5] at hs5
    dsimp only at hs5
    have hs6 : nthStartState a u now 1 6
        = ((nthStartState a u now 1 5).start_amplitude_request u now 1).2 := rfl
    rw [hs5, e6] at hs6
    dsimp only at hs6
    have hend := end_request_pos
      { a with
        amplitude_costs :=
          fupd a.amplitude_costs u ((now, 1) :: pruneOld now (a.amplitude_costs u)),
        amplitude_concurrent := fupd a.amplitude_concurrent u 5 } u
      (by dsimp only; rw [fupd_self]; norm_num)
    dsimp only at hend
    rw [fupd_self, fupd_fupd_same] at hend
    norm_num at hend
    have e7 := start_on_midstate a u now 4 hfresh hbud (by norm_num)
    refine ⟨?_, ?_, ?_, ?_, ?_, ?_, ?_⟩
    · show (a.start_amplitude_request u now 1).1 = true
      rw [e1]
    · show ((nthStartState a u now 1 1).start_amplitude_request u now 1).1 = true
      rw [hs1, e2]
    · show ((nthStartState a u now 1 2).start_amplitude_request u now 1).1 = true
      rw [hs2, e3]
    · show ((nthStartState a u now 1 3).start_amplitude_request u now 1).1 = true
      rw [hs3, e4]
    · show ((nthStartState a u now 1 4).start_amplitude_request u now 1).1 = true
      rw [hs4, e5]
    · show ((nthStartState a u now 1 5).start_amplitude_request u now 1).1 = false
      rw [hs5, e6]
    · rw [hs6, hend, e7]
  · intro a u now cost h
    rw [check_amplitude_limits_eq] at h
    dsimp only at h
    rcases Bool.and_eq_true_iff.mp h with ⟨-, h2⟩
    simp at h2
    omega

/-- Witness for C2 at the fresh tracker, key "u1", time 0. -/
theorem amplitude_concurrent_limit_five_witness :
    (nthStartResult APIRateLimiter.create "u1" 0 1 0 = true
      ∧ nthStartResult APIRateLimiter.create "u1" 0 1 1 = true
      ∧ nthStartResult APIRateLimiter.create "u1" 0 1 2 = true
      ∧ nthStartResult APIRateLimiter.create "u1" 0 1 3 = true
      ∧ nthStartResult APIRateLimiter.create "u1" 0 1 4 = true
      ∧ nthStartResult APIRateLimiter.create "u1" 0 1 5 = false
      ∧ (((nthStartState APIRateLimiter.create "u1" 0 1 6).end_amplitude_request
            "u1").start_amplitude_request "u1" 0 1).1 = true)
    ∧ APIRateLimiter.create.amplitude_concurrent "u1" < 5 :=
  ⟨amplitude_concurrent_limit_five.1 APIRateLimiter.create "u1" 0 rfl
      (by simp [APIRateLimiter.create]) (by with_unfolding_all decide),
   amplitude_concurrent_limit_five.2 APIRateLimiter.create "u1" 0 1
      (by with_unfolding_all rfl)⟩

/-! ### `wait_if_limited` versus its specification -/

/-- The behaviour the specification ascribes to `wait_if_limited`
(`timeUntilNextToken`): apply the same lazy-refill recomputation as
`consume` first, then report `(1 - tokens) / refillRate` if the refilled
token count is below 1 and null otherwise, mutating nothing. -/
def wait_if_limited_spec (a : APIRateLimiter) (api user_id : String)
    (now : Rat) : Option Rat :=
  match alookup a.limits api with
  | some rl =>
    let key := api ++ ":" ++ user_id
    let br := rl.get_bucket key now
    let b := br.1.refill now
    if b.tokens < 1 then some ((1 - b.tokens) / b.refill_rate) else none
  | none => none

/-- The bucket stored for `(api, key)`. -/
def lookupBucket (a : APIRateLimiter) (api key : String) : Option TokenBucket :=
  match alookup a.limits api with
  | some rl => alookup rl.buckets key
  | none => none

set_option maxRecDepth 100000

/-- The tracker after the five amplitude tokens of user "u1" are consumed
at time 0 (amplitude burst is 5). -/
def ampDrained : APIRateLimiter :=
  (fun s : APIRateLimiter => (s.check_api_limit "amplitude" "u1" 0).2)^[5]
    APIRateLimiter.create

theorem alookup_aset_present {β : Type} {l : List (String × β)} {k : String}
    {v0 : β} (v : β) (h : alookup l k = some v0) :
    alookup (aset l k v) k = some v := by
  induction l with
  | nil => simp [alookup] at h
  | cons p rest ih =>
    by_cases hp : p.1 = k
    · simp [aset, alookup, hp]
    · rw [alookup] at h
      rw [if_neg hp] at h
      simp only [aset, List.map_cons, if_neg hp]
      rw [alookup, if_neg hp]
      exact ih h

theorem alookup_aset_ne {β : Type} {l : List (String × β)} {k k2 : String}
    (v : β) (h : k2 ≠ k) : alookup (aset l k v) k2 = alookup l k2 := by
  induction l with
  | nil => rfl
  | cons p rest ih =>
    by_cases hp : p.1 = k
    · have hk2 : ¬ (k = k2) := fun hh => h hh.symm
      have hp2 : ¬ (p.1 = k2) := by rw [hp]; exact hk2
      simp only [aset, List.map_cons, if_pos hp]
      rw [alookup, if_neg hk2, alookup, if_neg hp2]
      exact ih
    · simp only [aset, List.map_cons, if_neg hp]
      rw [alookup, alookup]
      by_cases hp2 : p.1 = k2
      · rw [if_pos hp2, if_pos hp2]
      · rw [if_neg hp2, if_neg hp2]
        exact ih

theorem get_bucket_present {rl : RateLimiter} {key : String} {b : TokenBucket}
    (now : Rat) (h : alookup rl.buckets key = some b) :
    rl.get_bucket key now = (b, rl) := by
  unfold RateLimiter.get_bucket
  rw [h]

/-- C6 counterexample: with the amplitude bucket of "u1" drained at time
0, the code's `wait_if_limited` consulted at time 3600 still reports a
1/6-second wait from the stale token count, while the spec-described
refill-first computation reports no limit (the bucket would be full
again).  `wait_if_limited` does not apply the lazy refill. -/
theorem wait_if_limited_stale_counterexample :
    (ampDrained.wait_if_limited "amplitude" "u1" 3600).1 = some (1/6)
    ∧ wait_if_limited_spec ampDrained "amplitude" "u1" 3600 = none := by
  constructor
  · with_unfolding_all rfl
  · with_unfolding_all rfl

/-- C6 (amended): for a key whose bucket already exists,
`wait_if_limited` reads the *stored* token count without any refill
recomputation — it returns `(1 - tokens) / refill_rate` exactly when the
stale stored `tokens` is below 1 — and it mutates no stored bucket. -/
theorem wait_if_limited_stale_estimate :
    ∀ (a : APIRateLimiter) (api user_id : String) (now : Rat)
      (rl : RateLimiter) (b : TokenBucket),
      alookup a.limits api = some rl →
      alookup rl.buckets (api ++ ":" ++ user_id) = some b →
      (a.wait_if_limited api user_id now).1
        = (if b.tokens < 1 then some ((1 - b.tokens) / b.refill_rate) else none)
      ∧ ∀ api2 key2,
          lookupBucket (a.wait_if_limited api user_id now).2 api2 key2
            = lookupBucket a api2 key2 := by
  intro a api user_id now rl b h1 h2
  have hw : a.wait_if_limited api user_id now
      = (if b.tokens < 1 then some ((1 - b.tokens) / b.refill_rate) else none,
         { a with limits := aset a.limits api rl }) := by
    unfold APIRateLimiter.wait_if_limited
    rw [h1]
    dsimp only
    rw [get_bucket_present now h2]
    dsimp only
    split
    · rfl
    · rfl
  rw [hw]
  refine ⟨rfl, ?_⟩
  intro api2 key2
  unfold lookupBucket
  dsimp only
  by_cases hapi : api2 = api
  · subst hapi
    rw [alookup_aset_present rl h1, h1]
  · rw [alookup_aset_ne rl hapi]

/-- Witness for C6's amended theorem at the drained amplitude bucket. -/
theorem wait_if_limited_stale_estimate_witness :
    (ampDrained.wait_if_limited "amplitude" "u1" 3600).1 = some (1/6)
    ∧ lookupBucket (ampDrained.wait_if_limited "amplitude" "u1" 3600).2
        "amplitude" "amplitude:u1"
      = lookupBucket ampDrained "amplitude" "amplitude:u1" := by
  have h := wait_if_limited_stale_estimate ampDrained "amplitude" "u1" 3600
    { requests_per_minute := 360, burst := 5, refill_rate := 6,
      buckets := [("amplitude:u1", ⟨5, 0, 6, 0⟩)] }
    ⟨5, 0, 6, 0⟩ (by with_unfolding_all rfl) (by with_unfolding_all rfl)
  exact ⟨h.1.trans (by with_unfolding_all rfl), h.2 "amplitude" "amplitude:u1"⟩

/-- The boolean returned by `start_amplitude_request` is the boolean of
the underlying `check_amplitude_limits`. -/
theorem start_fst (a : APIRateLimiter) (u : String) (now : Rat) (cost : Int) :
    (a.start_amplitude_request u now cost).1
      = (a.check_amplitude_limits u now cost).1 := by
  unfold APIRateLimiter.start_amplitude_request
  dsimp only
  split
  · rename_i h; exact h.symm
  · rename_i h
    simp only [Bool.not_eq_true] at h
    exact h.symm

/-- C10 counterexample: the claim "admitting such a non-positive cost
always passes the 12000 budget check" is false.  All costs below arise
from the cost formula with day counts from reversed date ranges
(`-100 = (-1)·4·25`, `-50 = (-2)·25·1`): after admitting -100 at time 0
and 12100 at time 200, at time 3700 the -100 sample has aged out while
the 12100 sample remains, so the stored hourly total is 12100 and the
non-positive admit of -50 is rejected by the budget check even though
only 2 requests are in flight. -/
theorem nonpositive_cost_budget_counterexample :
    (-50 : Int) ≤ 0
    ∧ (-100 : Int) = calculate_amplitude_cost (-1) 4 25
    ∧ (-50 : Int) = calculate_amplitude_cost (-2) 25 1
    ∧ (APIRateLimiter.create.start_amplitude_request "u" 0 (-100)).1 = true
    ∧ ((APIRateLimiter.create.start_amplitude_request "u" 0
          (-100)).2.start_amplitude_request "u" 200 12100).1 = true
    ∧ ((APIRateLimiter.create.start_amplitude_request "u" 0
          (-100)).2.start_amplitude_request "u" 200
          12100).2.amplitude_concurrent "u" = 2
    ∧ hourlyTotal (pruneOld 3700
        (((APIRateLimiter.create.start_amplitude_request "u" 0
          (-100)).2.start_amplitude_request "u" 200
          12100).2.amplitude_costs "u")) = 12100
    ∧ (((APIRateLimiter.create.start_amplitude_request "u" 0
          (-100)).2.start_amplitude_request "u" 200
          12100).2.start_amplitude_request "u" 3700 (-50)).1 = false := by
  refine ⟨by decide, by decide, by decide, ?_, ?_, ?_, ?_, ?_⟩
  · with_unfolding_all rfl
  · with_unfolding_all rfl
  · with_unfolding_all rfl
  · with_unfolding_all rfl
  · with_unfolding_all rfl

/-- C10 (amended): a reversed date range (end strictly before start)
yields a day count of zero or less, hence with non-negative conditions
and query-type cost a non-positive total cost; admitting a non-positive
cost passes the budget check whenever the pruned hourly total is at most
12000 (it can exceed 12000 only after negative samples age out before
larger positive ones), so with fewer than five requests in flight the
admit succeeds; and a successful admit of a strictly negative cost at a
fresh timestamp strictly lowers the recorded hourly total. -/
theorem nonpositive_cost_admission :
    (∀ (s e : String) (ys ms ds ye me de : Nat),
        parseYYYYMMDD s = some (ys, ms, ds) →
        parseYYYYMMDD e = some (ye, me, de) →
        dateOrdinal ye me de < dateOrdinal ys ms ds →
        calculate_days s e ≤ 0)
    ∧ (∀ d c q : Int, d ≤ 0 → 0 ≤ c → 0 ≤ q →
        calculate_amplitude_cost d c q ≤ 0)
    ∧ (∀ (a : APIRateLimiter) (u : String) (now : Rat) (cost : Int),
        cost ≤ 0 →
        hourlyTotal (pruneOld now (a.amplitude_costs u)) ≤ 12000 →
        a.amplitude_concurrent u < 5 →
        (a.start_amplitude_request u now cost).1 = true)
    ∧ (∀ (a : APIRateLimiter) (u : String) (now : Rat) (cost : Int),
        cost < 0 →
        (∀ p ∈ pruneOld now (a.amplitude_costs u), p.1 ≠ now) →
        (a.start_amplitude_request u now cost).1 = true →
        hourlyTotal ((a.start_amplitude_request u now cost).2.amplitude_costs u)
          < hourlyTotal (pruneOld now (a.amplitude_costs u))) := by
  refine ⟨?_, ?_, ?_, ?_⟩
  · intro s e ys ms ds ye me de hs he hlt
    unfold calculate_days
    rw [hs, he]
    dsimp only
    omega
  · intro d c q hd hc hq
    unfold calculate_amplitude_cost
    nlinarith [mul_nonneg (mul_nonneg (neg_nonneg.2 hd) hc) hq]
  · intro a u now cost hcost hbud hconc
    rw [start_success_run a u now cost (by linarith) hconc]
  · intro a u now cost hcost hfresh htrue
    rw [start_fst, check_amplitude_limits_eq] at htrue
    dsimp only at htrue
    rcases Bool.and_eq_true_iff.mp htrue with ⟨hb1, hb2⟩
    simp at hb1 hb2
    rw [start_success_run a u now cost (by linarith) (by omega)]
    dsimp only
    rw [fupd_self, dictInsert_not_mem cost hfresh, hourlyTotal_cons]
    linarith

/-- Witness for C10's amended theorem: dates 20240102 → 20240101, cost
formula at (-1, 4, 25), and an admit of -50 to the fresh tracker. -/
theorem nonpositive_cost_admission_witness :
    calculate_days "20240102" "20240101" ≤ 0
    ∧ calculate_amplitude_cost (-1) 4 25 ≤ 0
    ∧ (APIRateLimiter.create.start_amplitude_request "u" 0 (-50)).1 = true
    ∧ hourlyTotal ((APIRateLimiter.create.start_amplitude_request "u" 0
          (-50)).2.amplitude_costs "u")
        < hourlyTotal (pruneOld 0 (APIRateLimiter.create.amplitude_costs "u")) :=
  ⟨nonpositive_cost_admission.1 "20240102" "20240101" 2024 1 2 2024 1 1
      (by with_unfolding_all rfl) (by with_unfolding_all rfl)
      (by with_unfolding_all decide),
   nonpositive_cost_admission.2.1 (-1) 4 25 (by decide) (by decide) (by decide),
   nonpositive_cost_admission.2.2.1 APIRateLimiter.create "u" 0 (-50)
      (by decide) (by with_unfolding_all decide) (by decide),
   nonpositive_cost_admission.2.2.2 APIRateLimiter.create "u" 0 (-50)
      (by decide)
      (by
        intro p hp
        rw [show pruneOld 0 (APIRateLimiter.create.amplitude_costs "u")
            = [] from rfl] at hp
        cases hp)
      (by with_unfolding_all rfl)⟩
